import Mathlib

/-!
Verification of the `models` user-service layer of `uhdang/lenslocked`.

The Go code is embedded shallowly:

* `User` mirrors the `User` struct (gorm.Model's ID plus the declared fields);
  Go zero values become the field defaults.
* Validation functions (`bcryptPassword`, `setRememberIfUnset`, `hmacRemember`,
  `idGreaterThan`) mutate a `*User` in Go; here they pass the record
  explicitly, returning `Except Err User`.
* The wrapped `UserDB` is a record of abstract operations, and every
  `userValidator` method returns both its result and the list of calls it
  made to the wrapped store, so that delegation (or its absence) is provable.
* `bcrypt.GenerateFromPassword` (salted, fallible) is an abstract parameter
  `gen`; `bcrypt.CompareHashAndPassword` is an abstract parameter `compare`
  with the three outcomes the Go code distinguishes (nil /
  ErrMismatchedHashAndPassword / any other error); `hash.HMAC.Hash` is an
  abstract deterministic function `hmac`; `rand.RememberToken` is an abstract
  outcome `randTok` (one invocation's result). Theorems quantify over these.
* Go's `uint` is modelled as `Nat`; converting a (possibly negative) signed
  integer to `uint` is `uintOfInt`, reduction modulo 2^64.
-/

/-- The error vocabulary of the models package: `ErrNotFound`, `ErrInvalidID`,
`ErrInvalidPassword`, and `other` for any error originating outside the
package (store backend failures, bcrypt failures, entropy failures). -/
inductive Err where
  | notFound
  | invalidID
  | invalidPassword
  | other (msg : String)
deriving DecidableEq, Repr

/-- The `User` struct: gorm.Model's `ID` plus Name, Email, Password (not
persisted), PasswordHash, Remember (not persisted), RememberHash, Age.
Defaults are the Go zero values. -/
structure User where
  ID : Nat := 0
  Name : String := ""
  Email : String := ""
  Password : String := ""
  PasswordHash : String := ""
  Remember : String := ""
  RememberHash : String := ""
  Age : Int := 0
deriving DecidableEq, Repr

deriving instance DecidableEq for Except

/-- `var user User` — the zero-valued record. -/
def emptyUser : User := {}

/-- The persisted row of a `User`: the gorm struct tags mark `Password` and
`Remember` with `gorm:"-"`, so only these columns are stored. -/
structure UserRow where
  ID : Nat
  Name : String
  Email : String
  PasswordHash : String
  RememberHash : String
  Age : Int
deriving DecidableEq, Repr

/-- The row the store persists for a given in-memory record. -/
def toRow (u : User) : UserRow :=
  { ID := u.ID, Name := u.Name, Email := u.Email,
    PasswordHash := u.PasswordHash, RememberHash := u.RememberHash,
    Age := u.Age }

/-- `userPwPepper`, the app-wide pepper appended to passwords before
hashing. -/
def userPwPepper : String := "random-string-as-pepper"

/-- `userValFn`: a single validation/normalization step. In Go it mutates a
`*User` and returns an error; here it returns the updated record or the
error. -/
abbrev userValFn := User → Except Err User

/-- `runUserValFns`: run the steps in order, halting at and returning the
first error, threading the record through on success. -/
def runUserValFns : User → List userValFn → Except Err User
  | user, [] => .ok user
  | user, fn :: fns =>
    match fn user with
    | .error e => .error e
    | .ok u => runUserValFns u fns

/-- `userValidator.bcryptPassword`: a no-op when `Password` is empty,
otherwise hash `Password + userPwPepper` with bcrypt (`gen`), store the hash
in `PasswordHash` and clear `Password`; a bcrypt failure is returned as-is. -/
def bcryptPassword (gen : String → Except Err String) : userValFn := fun user =>
  if user.Password = "" then .ok user
  else
    match gen (user.Password ++ userPwPepper) with
    | .error e => .error e
    | .ok hashedBytes => .ok { user with PasswordHash := hashedBytes, Password := "" }

/-- `userValidator.hmacRemember`: a no-op when `Remember` is empty, otherwise
set `RememberHash` to the HMAC of `Remember`. -/
def hmacRemember (hmac : String → String) : userValFn := fun user =>
  if user.Remember = "" then .ok user
  else .ok { user with RememberHash := hmac user.Remember }

/-- `userValidator.setRememberIfUnset`: a no-op when `Remember` is non-empty,
otherwise mint a token via `rand.RememberToken` (`randTok`), propagating an
entropy failure. -/
def setRememberIfUnset (randTok : Except Err String) : userValFn := fun user =>
  if user.Remember ≠ "" then .ok user
  else
    match randTok with
    | .error e => .error e
    | .ok token => .ok { user with Remember := token }

/-- `userValidator.idGreaterThan n`: fail with `ErrInvalidID` unless
`user.ID > n`. -/
def idGreaterThan (n : Nat) : userValFn := fun user =>
  if user.ID ≤ n then .error .invalidID else .ok user

/-- One call made to the wrapped `UserDB`. -/
inductive StoreCall where
  | byEmail (email : String)
  | byRemember (rememberHash : String)
  | create (user : User)
  | update (user : User)
  | delete (id : Nat)
deriving DecidableEq, Repr

/-- The wrapped `UserDB` layer, as a record of abstract operations (the
interface contract: every lookup yields either a record or an error). -/
structure UserDB where
  byEmail : String → Except Err User
  byRemember : String → Except Err User
  create : User → Except Err Unit
  update : User → Except Err Unit
  delete : Nat → Except Err Unit

/-- `userValidator.Create`: run bcryptPassword, setRememberIfUnset,
hmacRemember in order; on the first error return it having made no store
call, otherwise delegate to the wrapped store's Create with the normalized
record. -/
def uvCreate (gen : String → Except Err String) (randTok : Except Err String)
    (hmac : String → String) (db : UserDB) (user : User) :
    Except Err Unit × List StoreCall :=
  match runUserValFns user
      [bcryptPassword gen, setRememberIfUnset randTok, hmacRemember hmac] with
  | .error e => (.error e, [])
  | .ok u => (db.create u, [.create u])

/-- `userValidator.Update`: run bcryptPassword then hmacRemember (no token
minting); on the first error return it having made no store call, otherwise
delegate to the wrapped store's Update. -/
def uvUpdate (gen : String → Except Err String) (hmac : String → String)
    (db : UserDB) (user : User) :
    Except Err Unit × List StoreCall :=
  match runUserValFns user [bcryptPassword gen, hmacRemember hmac] with
  | .error e => (.error e, [])
  | .ok u => (db.update u, [.update u])

/-- `userValidator.Delete`: build a zero record with the given ID, check
`idGreaterThan 0`, and on success delegate to the wrapped store's Delete. -/
def uvDelete (db : UserDB) (id : Nat) :
    Except Err Unit × List StoreCall :=
  match runUserValFns { emptyUser with ID := id } [idGreaterThan 0] with
  | .error e => (.error e, [])
  | .ok _ => (db.delete id, [.delete id])

/-- `userValidator.ByRemember`: build a record holding the plaintext token,
run hmacRemember, then delegate to the wrapped store's ByRemember with the
record's RememberHash. -/
def uvByRemember (hmac : String → String) (db : UserDB) (token : String) :
    Except Err User × List StoreCall :=
  match runUserValFns { emptyUser with Remember := token } [hmacRemember hmac] with
  | .error e => (.error e, [])
  | .ok u => (db.byRemember u.RememberHash, [.byRemember u.RememberHash])

/-- The three outcomes of `bcrypt.CompareHashAndPassword` that
`userService.Authenticate` distinguishes: nil, ErrMismatchedHashAndPassword,
or any other error. -/
inductive CompareResult where
  | ok
  | mismatch
  | err (e : Err)
deriving DecidableEq, Repr

/-- `userService.Authenticate`: look the user up by email (returning a lookup
error unchanged), then compare the stored PasswordHash against
`password + userPwPepper`. The Go `(*User, error)` return is the pair of
options; the second component of the result is the list of store calls
made. -/
def authenticate (db : UserDB) (compare : String → String → CompareResult)
    (email password : String) :
    (Option User × Option Err) × List StoreCall :=
  match db.byEmail email with
  | .error e => ((none, some e), [.byEmail email])
  | .ok foundUser =>
    (match compare foundUser.PasswordHash (password ++ userPwPepper) with
     | .ok => (some foundUser, none)
     | .mismatch => (none, some .invalidPassword)
     | .err e => (none, some e),
     [.byEmail email])

/-- Go's conversion of a signed integer to `uint` (64-bit): reduction modulo
2^64. -/
def uintOfInt (i : Int) : Nat := (i % (2 ^ 64)).toNat

/-! ### Concrete instances used to evaluate the definitions -/

/-- A concrete deterministic token hasher for evaluation. -/
def hashDemo : String → String := fun s => "h:" ++ s

/-- A concrete bcrypt generator for evaluation. -/
def genDemo : String → Except Err String := fun s => .ok ("bc:" ++ s)

/-- A concrete bcrypt generator with constant output, for evaluation. -/
def genConst : String → Except Err String := fun _ => .ok "B"

/-- A concrete token hasher with constant output, for evaluation. -/
def hashConst : String → String := fun _ => "H"

/-- A concrete successful remember-token generation. -/
def tokDemo : Except Err String := .ok "T"

/-- A concrete store whose writes succeed and whose remember lookup echoes
the hash it was given inside the error, so delegation arguments are
observable. -/
def dbDemo : UserDB :=
  { byEmail := fun _ => .error .notFound
    byRemember := fun h => .error (.other h)
    create := fun _ => .ok ()
    update := fun _ => .ok ()
    delete := fun _ => .ok () }

/-- A concrete store whose operations fail with a recognizable error. -/
def dbFailDemo : UserDB :=
  { byEmail := fun _ => .error (.other "db")
    byRemember := fun _ => .error (.other "db")
    create := fun _ => .error (.other "db")
    update := fun _ => .error (.other "db")
    delete := fun _ => .error (.other "db") }

/-- A concrete user record used to evaluate Authenticate. -/
def userDemo : User := { emptyUser with Email := "a@b", PasswordHash := "PH" }

/-- A concrete store that finds `userDemo` for any email. -/
def dbAuthDemo : UserDB :=
  { dbDemo with byEmail := fun _ => .ok userDemo }

/-! ### Helper lemmas about the validation runner and its steps -/

theorem runUserValFns_nil_ok {user u : User} (h : runUserValFns user [] = .ok u) :
    user = u := by
  simpa [runUserValFns] using h

theorem runUserValFns_cons_ok {user u : User} {fn : userValFn} {fns : List userValFn}
    (h : runUserValFns user (fn :: fns) = .ok u) :
    ∃ w, fn user = .ok w ∧ runUserValFns w fns = .ok u := by
  have h' : (match fn user with
      | .error e => (.error e : Except Err User)
      | .ok w => runUserValFns w fns) = .ok u := h
  cases hfn : fn user with
  | error e => rw [hfn] at h'; exact absurd h' (by simp)
  | ok w => rw [hfn] at h'; exact ⟨w, rfl, h'⟩

theorem bcryptPassword_ok_cases {gen : String → Except Err String} {user u1 : User}
    (h : bcryptPassword gen user = .ok u1) :
    (user.Password = "" ∧ u1 = user) ∨
    (user.Password ≠ "" ∧ ∃ hh, gen (user.Password ++ userPwPepper) = .ok hh ∧
      u1 = { user with PasswordHash := hh, Password := "" }) := by
  unfold bcryptPassword at h
  by_cases hp : user.Password = ""
  · rw [if_pos hp] at h
    exact Or.inl ⟨hp, by simpa using h.symm⟩
  · rw [if_neg hp] at h
    cases hg : gen (user.Password ++ userPwPepper) with
    | error e => rw [hg] at h; exact absurd h (by simp)
    | ok hh =>
      rw [hg] at h
      exact Or.inr ⟨hp, hh, rfl, by simpa using h.symm⟩

theorem setRememberIfUnset_ok_cases {randTok : Except Err String} {user u1 : User}
    (h : setRememberIfUnset randTok user = .ok u1) :
    (user.Remember ≠ "" ∧ u1 = user) ∨
    (user.Remember = "" ∧ ∃ t, randTok = .ok t ∧
      u1 = { user with Remember := t }) := by
  unfold setRememberIfUnset at h
  by_cases hr : user.Remember = ""
  · rw [if_neg (by simpa using hr)] at h
    cases ht : randTok with
    | error e => rw [ht] at h; exact absurd h (by simp)
    | ok t => rw [ht] at h; exact Or.inr ⟨hr, t, rfl, by simpa using h.symm⟩
  · rw [if_pos hr] at h
    exact Or.inl ⟨hr, by simpa using h.symm⟩

theorem hmacRemember_ok_cases {hmac : String → String} {user u1 : User}
    (h : hmacRemember hmac user = .ok u1) :
    (user.Remember = "" ∧ u1 = user) ∨
    (user.Remember ≠ "" ∧ u1 = { user with RememberHash := hmac user.Remember }) := by
  unfold hmacRemember at h
  by_cases hr : user.Remember = ""
  · rw [if_pos hr] at h
    exact Or.inl ⟨hr, by simpa using h.symm⟩
  · rw [if_neg hr] at h
    exact Or.inr ⟨hr, by simpa using h.symm⟩

/-! ### Claim theorems -/

/-- Claim C1: Authenticate returns the found user and no error when the email
lookup succeeds and bcrypt verification matches; InvalidPassword when the
lookup succeeds but verification reports a mismatch; NotFound when the lookup
reports no record with that email; and any other lookup or verification error
unwrapped. -/
theorem authenticate_error_semantics (db : UserDB)
    (compare : String → String → CompareResult) (email password : String) :
    (∀ u, db.byEmail email = .ok u →
      compare u.PasswordHash (password ++ userPwPepper) = .ok →
      authenticate db compare email password = ((some u, none), [.byEmail email]))
    ∧ (∀ u, db.byEmail email = .ok u →
      compare u.PasswordHash (password ++ userPwPepper) = .mismatch →
      authenticate db compare email password =
        ((none, some .invalidPassword), [.byEmail email]))
    ∧ (db.byEmail email = .error .notFound →
      authenticate db compare email password =
        ((none, some .notFound), [.byEmail email]))
    ∧ (∀ e, db.byEmail email = .error e →
      authenticate db compare email password = ((none, some e), [.byEmail email]))
    ∧ (∀ u e, db.byEmail email = .ok u →
      compare u.PasswordHash (password ++ userPwPepper) = .err e →
      authenticate db compare email password = ((none, some e), [.byEmail email])) := by
  refine ⟨?_, ?_, ?_, ?_, ?_⟩
  · intro u h1 h2; simp [authenticate, h1, h2]
  · intro u h1 h2; simp [authenticate, h1, h2]
  · intro h1; simp [authenticate, h1]
  · intro e h1; simp [authenticate, h1]
  · intro u e h1 h2; simp [authenticate, h1, h2]

/-- Witness for C1: a store holding `userDemo` and a matching comparison. -/
theorem authenticate_error_semantics_witness :
    authenticate dbAuthDemo (fun _ _ => CompareResult.ok) "a@b" "pw" =
      ((some userDemo, none), [StoreCall.byEmail "a@b"]) :=
  (authenticate_error_semantics dbAuthDemo (fun _ _ => CompareResult.ok)
    "a@b" "pw").1 userDemo rfl rfl

/-- Claim C10: Authenticate returns a record exactly when it returns no
error, and its only store interaction is the single read-only ByEmail
lookup. -/
theorem authenticate_record_iff_nil_error_and_readonly (db : UserDB)
    (compare : String → String → CompareResult) (email password : String) :
    ((authenticate db compare email password).1.1 ≠ none ↔
      (authenticate db compare email password).1.2 = none) ∧
    (authenticate db compare email password).2 = [StoreCall.byEmail email] := by
  unfold authenticate
  cases db.byEmail email with
  | error e => simp
  | ok u =>
    cases h2 : compare u.PasswordHash (password ++ userPwPepper) <;> simp [h2]

/-- Claim C2: the validation layer's Create runs exactly the three steps
bcryptPassword, setRememberIfUnset, hmacRemember in that order, halts at and
returns the first step error without a store call, and delegates to the
wrapped store's Create exactly when all three steps succeed. -/
theorem uvCreate_three_steps (gen : String → Except Err String)
    (randTok : Except Err String) (hmac : String → String) (db : UserDB)
    (user : User) :
    uvCreate gen randTok hmac db user =
      match bcryptPassword gen user with
      | .error e => (.error e, [])
      | .ok u1 =>
        match setRememberIfUnset randTok u1 with
        | .error e => (.error e, [])
        | .ok u2 =>
          match hmacRemember hmac u2 with
          | .error e => (.error e, [])
          | .ok u3 => (db.create u3, [.create u3]) := by
  unfold uvCreate
  cases h1 : bcryptPassword gen user with
  | error e => simp [runUserValFns, h1]
  | ok u1 =>
    cases h2 : setRememberIfUnset randTok u1 with
    | error e => simp [runUserValFns, h1, h2]
    | ok u2 =>
      cases h3 : hmacRemember hmac u2 with
      | error e => simp [runUserValFns, h1, h2, h3]
      | ok u3 => simp [runUserValFns, h1, h2, h3]

/-- Claim C3: the password step hashes `Password + pepper`, stores the hash
and clears the plaintext when a password is present (propagating a bcrypt
failure), and is a no-op — PasswordHash keeps its prior value — when the
password is empty. -/
theorem bcryptPassword_step_spec (gen : String → Except Err String)
    (user : User) :
    (user.Password = "" → bcryptPassword gen user = .ok user) ∧
    (∀ hh, user.Password ≠ "" → gen (user.Password ++ userPwPepper) = .ok hh →
      bcryptPassword gen user =
        .ok { user with PasswordHash := hh, Password := "" }) ∧
    (∀ e, user.Password ≠ "" → gen (user.Password ++ userPwPepper) = .error e →
      bcryptPassword gen user = .error e) := by
  refine ⟨?_, ?_, ?_⟩
  · intro hp; unfold bcryptPassword; rw [if_pos hp]
  · intro hh hp hg; unfold bcryptPassword; rw [if_neg hp, hg]
  · intro e hp hg; unfold bcryptPassword; rw [if_neg hp, hg]

/-- Witness for C3: hashing a concrete one-password record. -/
theorem bcryptPassword_step_spec_witness :
    bcryptPassword genDemo { emptyUser with Password := "pw" } =
      .ok { emptyUser with
            Password := ""
            PasswordHash := "bc:" ++ ("pw" ++ userPwPepper) } :=
  (bcryptPassword_step_spec genDemo { emptyUser with Password := "pw" }).2.1
    ("bc:" ++ ("pw" ++ userPwPepper)) (by decide) rfl

/-- Shared helper: Delete at id = 0 fails the `idGreaterThan 0` check and
makes no store call. -/
theorem uvDelete_zero (db : UserDB) :
    uvDelete db 0 = (.error .invalidID, []) := by
  simp [uvDelete, runUserValFns, idGreaterThan, emptyUser]

/-- Shared helper: Delete at any nonzero id passes the check and delegates
with the same id. -/
theorem uvDelete_pos (db : UserDB) (id : Nat) (h : id ≠ 0) :
    uvDelete db id = (db.delete id, [.delete id]) := by
  simp [uvDelete, runUserValFns, idGreaterThan, emptyUser, Nat.le_zero, h]

/-- Claim C6: Update on a record with empty plaintext Remember never mints a
token (Update has no access to the token generator at all) and, whenever it
delegates, the delegated record's RememberHash is the caller's and its
Remember is still empty; otherwise it returns the password-step error with
no store call. -/
theorem uvUpdate_no_remint (gen : String → Except Err String)
    (hmac : String → String) (db : UserDB) (user : User)
    (h : user.Remember = "") :
    (∃ e, uvUpdate gen hmac db user = (.error e, [])) ∨
    (∃ u', uvUpdate gen hmac db user = (db.update u', [.update u']) ∧
      u'.RememberHash = user.RememberHash ∧ u'.Remember = "") := by
  cases h1 : bcryptPassword gen user with
  | error e => exact Or.inl ⟨e, by simp [uvUpdate, runUserValFns, h1]⟩
  | ok u1 =>
    have hrem : u1.Remember = "" ∧ u1.RememberHash = user.RememberHash := by
      rcases bcryptPassword_ok_cases h1 with ⟨_, rfl⟩ | ⟨_, hh, _, hu⟩
      · exact ⟨h, rfl⟩
      · subst hu; exact ⟨h, rfl⟩
    have h3 : hmacRemember hmac u1 = .ok u1 := by
      unfold hmacRemember; rw [if_pos hrem.1]
    exact Or.inr ⟨u1, by simp [uvUpdate, runUserValFns, h1, h3], hrem.2, hrem.1⟩

/-- Witness for C6: a record with an existing RememberHash and no plaintext
token. -/
theorem uvUpdate_no_remint_witness :
    (∃ e, uvUpdate genDemo hashDemo dbDemo { emptyUser with RememberHash := "RH" } =
      (.error e, [])) ∨
    (∃ u', uvUpdate genDemo hashDemo dbDemo { emptyUser with RememberHash := "RH" } =
      (dbDemo.update u', [.update u']) ∧
      u'.RememberHash = ({ emptyUser with RememberHash := "RH" } : User).RememberHash ∧
      u'.Remember = "") :=
  uvUpdate_no_remint genDemo hashDemo dbDemo
    { emptyUser with RememberHash := "RH" } rfl

/-- Counterexample to claim C7 as stated: the id is unsigned, so the uint
conversion of -1 is nonzero, passes the `id ≤ 0` guard, and reaches the
store's Delete instead of returning ErrInvalidID. -/
theorem uvDelete_negative_equivalent_cex :
    uvDelete dbDemo (uintOfInt (-1)) = (.ok (), [.delete (uintOfInt (-1))]) ∧
    (uvDelete dbDemo (uintOfInt (-1))).1 ≠ .error .invalidID ∧
    (uvDelete dbDemo (uintOfInt (-1))).2 ≠ [] := by decide

/-- Claim C7 (amended): Delete returns ErrInvalidID without invoking the
store's Delete exactly when id = 0 (the only unsigned id with id ≤ 0), and
for every nonzero id it delegates to the store's Delete with the same id. -/
theorem uvDelete_guard (db : UserDB) (id : Nat) :
    (id = 0 → uvDelete db id = (.error .invalidID, [])) ∧
    (id ≠ 0 → uvDelete db id = (db.delete id, [.delete id])) :=
  ⟨fun h => h ▸ uvDelete_zero db, uvDelete_pos db id⟩

/-- Witness for C7 (amended): Delete at 0 short-circuits; Delete at 5
delegates. -/
theorem uvDelete_guard_witness :
    uvDelete dbDemo 0 = (.error .invalidID, []) ∧
    uvDelete dbDemo 5 = (dbDemo.delete 5, [StoreCall.delete 5]) :=
  ⟨(uvDelete_guard dbDemo 0).1 rfl, (uvDelete_guard dbDemo 5).2 (by decide)⟩

/-- Claim C9: because the id is unsigned, the only value rejected with
ErrInvalidID is 0; every other id — including the uint conversion of any
negative int64 value — passes the guard and reaches the store's Delete. -/
theorem uvDelete_uint_guard (db : UserDB) :
    uvDelete db 0 = (.error .invalidID, []) ∧
    (∀ id : Nat, id ≠ 0 → uvDelete db id = (db.delete id, [.delete id])) ∧
    (∀ i : Int, -(2 ^ 63) ≤ i → i < 0 →
      uvDelete db (uintOfInt i) =
        (db.delete (uintOfInt i), [.delete (uintOfInt i)])) := by
  refine ⟨uvDelete_zero db, fun id h => uvDelete_pos db id h, fun i h1 h2 => ?_⟩
  have h0 : uintOfInt i ≠ 0 := by
    have e1 : (2 : Int) ^ 64 = 18446744073709551616 := by norm_num
    have e2 : (2 : Int) ^ 63 = 9223372036854775808 := by norm_num
    unfold uintOfInt
    rw [e1]; rw [e2] at h1
    omega
  exact uvDelete_pos db _ h0

/-- Witness for C9: the uint conversion of -5 reaches a store whose Delete
fails, and that failure is what the caller sees. -/
theorem uvDelete_uint_guard_witness :
    uvDelete dbFailDemo (uintOfInt (-5)) =
      (dbFailDemo.delete (uintOfInt (-5)), [StoreCall.delete (uintOfInt (-5))]) :=
  (uvDelete_uint_guard dbFailDemo).2.2 (-5) (by norm_num) (by norm_num)

/-- Counterexample to claim C8 as stated: for the empty token, hmacRemember's
empty-guard skips hashing, so the raw (empty) token is passed to the store
instead of its digest — the result differs from the store applied to the
digest of the token. -/
theorem uvByRemember_empty_token_cex :
    uvByRemember hashDemo dbDemo "" = (.error (.other ""), [.byRemember ""]) ∧
    uvByRemember hashDemo dbDemo "" ≠
      (dbDemo.byRemember (hashDemo ""), [.byRemember (hashDemo "")]) := by decide

/-- Claim C8 (amended): for every non-empty token, ByRemember returns exactly
the wrapped store's ByRemember applied to the digest of the token, and the
only value passed to the store is that digest, never the raw token. -/
theorem uvByRemember_delegates_digest (hmac : String → String) (db : UserDB)
    (token : String) (h : token ≠ "") :
    uvByRemember hmac db token =
      (db.byRemember (hmac token), [.byRemember (hmac token)]) := by
  simp [uvByRemember, runUserValFns, hmacRemember, h]

/-- Witness for C8 (amended): a concrete non-empty token reaches the store as
its digest. -/
theorem uvByRemember_delegates_digest_witness :
    uvByRemember hashDemo dbDemo "t" =
      (dbDemo.byRemember (hashDemo "t"), [StoreCall.byRemember (hashDemo "t")]) :=
  uvByRemember_delegates_digest hashDemo dbDemo "t" (by decide)

/-- A concrete candidate for Create carrying a plaintext password. -/
def userCreateDemo : User := { emptyUser with Email := "e", Password := "p" }

/-- The record `userCreateDemo` becomes after the Create pipeline under
`genConst`, `tokDemo`, `hashConst`. -/
def userCreatedDemo : User :=
  { emptyUser with Email := "e", PasswordHash := "B", Remember := "T", RememberHash := "H" }

/-- Counterexample to claim C4 as stated: a candidate with no plaintext
password and no prior hash is created successfully, and the persisted record's
PasswordHash is empty (the password step is a no-op on an empty password). -/
theorem uvCreate_empty_password_cex :
    uvCreate genDemo tokDemo hashDemo dbDemo { emptyUser with Email := "e@x" } =
      (.ok (), [.create { emptyUser with Email := "e@x", Remember := "T", RememberHash := "h:T" }]) ∧
    ({ emptyUser with Email := "e@x", Remember := "T", RememberHash := "h:T" } : User).PasswordHash = "" := by
  decide

/-- Claim C4 (amended): after a successful Create through the validation
layer the persisted record's RememberHash is non-empty, provided the token
hasher produces only non-empty digests and minted tokens are non-empty; and
its PasswordHash is non-empty provided bcrypt hashes are non-empty and the
candidate carried a plaintext Password or an already-set PasswordHash (with
neither, the password step is a no-op and PasswordHash stays empty). -/
theorem uvCreate_success_hashes (gen : String → Except Err String)
    (randTok : Except Err String) (hmac : String → String) (db : UserDB)
    (user u' : User)
    (hHmac : ∀ s, hmac s ≠ "")
    (hTok : ∀ t, randTok = .ok t → t ≠ "")
    (hGen : ∀ s hh, gen s = .ok hh → hh ≠ "")
    (hTrace : (uvCreate gen randTok hmac db user).2 = [.create u']) :
    u'.RememberHash ≠ "" ∧
    ((user.Password ≠ "" ∨ user.PasswordHash ≠ "") → u'.PasswordHash ≠ "") := by
  revert hTrace
  unfold uvCreate
  cases hrun : runUserValFns user
      [bcryptPassword gen, setRememberIfUnset randTok, hmacRemember hmac] with
  | error e => intro hTrace; exact absurd hTrace (by simp)
  | ok w =>
    intro hTrace
    have hw : w = u' := by simpa using hTrace
    subst hw
    obtain ⟨u1, h1, hrest⟩ := runUserValFns_cons_ok hrun
    obtain ⟨u2, h2, hrest2⟩ := runUserValFns_cons_ok hrest
    obtain ⟨u3, h3, hnil⟩ := runUserValFns_cons_ok hrest2
    have hu3 : u3 = w := runUserValFns_nil_ok hnil
    subst hu3
    have hPH : (user.Password ≠ "" ∨ user.PasswordHash ≠ "") → u1.PasswordHash ≠ "" := by
      rcases bcryptPassword_ok_cases h1 with ⟨hp, rfl⟩ | ⟨hp, hh, hg, rfl⟩
      · intro hcase
        rcases hcase with hc | hc
        · exact absurd hp hc
        · exact hc
      · intro _
        exact hGen _ _ hg
    have hRem2 : u2.Remember ≠ "" ∧ u2.PasswordHash = u1.PasswordHash := by
      rcases setRememberIfUnset_ok_cases h2 with ⟨hne, rfl⟩ | ⟨heq, t, ht, rfl⟩
      · exact ⟨hne, rfl⟩
      · exact ⟨hTok t ht, rfl⟩
    rcases hmacRemember_ok_cases h3 with ⟨heq, rfl⟩ | ⟨hne, rfl⟩
    · exact absurd heq hRem2.1
    · exact ⟨hHmac _, fun hcase => hRem2.2 ▸ hPH hcase⟩

/-- Witness for C4 (amended): a concrete Create with a plaintext password,
constant-output bcrypt and token hasher, and the minted token "T". -/
theorem uvCreate_success_hashes_witness :
    userCreatedDemo.RememberHash ≠ "" ∧
    ((userCreateDemo.Password ≠ "" ∨ userCreateDemo.PasswordHash ≠ "") →
      userCreatedDemo.PasswordHash ≠ "") :=
  uvCreate_success_hashes genConst tokDemo hashConst dbDemo
    userCreateDemo userCreatedDemo
    (fun s => by simp [hashConst])
    (fun t ht => by simp [tokDemo] at ht; subst ht; simp)
    (fun s hh hg => by simp [genConst] at hg; subst hg; simp)
    (by decide)

/-- Counterexample to claim C5 as stated: after the remember-token hashing
step the plaintext token is still present in the in-memory record, both at
the step itself and in the record Create delegates to the store. -/
theorem hmacRemember_retains_plaintext_cex :
    hmacRemember hashDemo { emptyUser with Remember := "tok" } =
      .ok { emptyUser with Remember := "tok", RememberHash := "h:tok" } ∧
    ({ emptyUser with Remember := "tok", RememberHash := "h:tok" } : User).Remember ≠ "" ∧
    (uvCreate genDemo tokDemo hashDemo dbDemo emptyUser).2 =
      [.create { emptyUser with Remember := "T", RememberHash := "h:T" }] ∧
    ({ emptyUser with Remember := "T", RememberHash := "h:T" } : User).Remember ≠ "" := by
  decide

/-- Claim C5 (amended): the hashing step stores the digest in RememberHash
while the plaintext Remember stays in the in-memory record (it is what the
caller reads back, e.g. for a cookie); the plaintext is nonetheless never
persisted — the persisted row of any record is independent of its Remember
field. -/
theorem hmacRemember_digest_and_row (hmac : String → String) (user : User)
    (h : user.Remember ≠ "") :
    hmacRemember hmac user = .ok { user with RememberHash := hmac user.Remember } ∧
    (∀ u : User, ∀ r, toRow { u with Remember := r } = toRow u) := by
  constructor
  · unfold hmacRemember; rw [if_neg h]
  · intro u r; rfl

/-- Witness for C5 (amended): hashing a concrete token. -/
theorem hmacRemember_digest_and_row_witness :
    hmacRemember hashDemo { emptyUser with Remember := "tk" } =
      .ok { emptyUser with Remember := "tk", RememberHash := "h:tk" } :=
  (hmacRemember_digest_and_row hashDemo { emptyUser with Remember := "tk" }
    (by decide)).1
